import Mathlib

/-!
# immortal: the control loop of the supervisor (`control.go`)

A shallow embedding of `Daemon.control` and `Daemon.Pid`.

* The two `uint32` flags `d.lock` and `d.lock_once` are natural numbers; the
  loop only stores the constants `0` and `1` or copies one flag into the
  other, so no arithmetic (and no wrap-around) occurs.  Following the comment
  in the source (`lock_once defaults to 0, 1 to run only once/down`), a flag
  is *true* when it holds `1` and *false* when it holds `0`.
* The `select` of the loop receives either from `p.errch` or from `d.ctrl`;
  the values received, in the order the loop receives them, are a list of
  `Event`s.
* Everything the loop does to the outside world (channel sends, `close`,
  calls on the process handle, diagnostic printing) is recorded, in program
  order, in a list of `Effect`s.
-/

namespace Immortal

/-- An `os.Signal`, identified by its number. -/
abbrev Signal := Nat

/-- A Go `error` value: `none` is `nil`. -/
abbrev GoError := Option String

/-- Identity of a reply channel (`chan int`). -/
abbrev ChanId := Nat

/-- The values the type switch of `control` can receive from `d.ctrl`.  The
first five are the message types declared in `control.go`; `other` stands for
a value of any other dynamic type (no `case` matches it). -/
inductive Ctrl where
  | controlPid (ch : ChanId)
  | controlUp
  | controlOnce
  | controlSignal (signal : Signal)
  | controlKill
  | other (tag : String)
  deriving DecidableEq, Repr

/-- What one `select` of the loop receives: an error from `p.errch` (the exit
notification) or a message from `d.ctrl`. -/
inductive Event where
  | exit (err : GoError)
  | ctrl (c : Ctrl)
  deriving DecidableEq, Repr

/-- The diagnostic lines `control` prints.  The durations printed by the first
two are wall-clock values and are not represented. -/
inductive Diag where
  | sinceStart
  | elapsed
  | err (e : GoError)
  | ctrl (c : Ctrl)
  deriving DecidableEq, Repr

/-- Observable actions of the loop, in program order. -/
inductive Effect where
  | print (line : Diag)
  | chanSend (ch : ChanId) (v : Int)
  | procSignal (sig : Signal)
  | procKill
  | closeCtrl
  | doneSend (err : GoError)
  deriving DecidableEq, Repr

/-- The process handle `p` as far as `control` uses it: the value `p.Pid()`
reports.  (`p.Signal` and `p.Kill` appear as effects.) -/
structure process where
  Pid : Int
  deriving DecidableEq, Repr

/-- The fields of `Daemon` that `control` reads or writes as data.  The
channels `d.ctrl` and `d.done` appear through `Event` and `Effect`. -/
structure Daemon where
  lock : Nat
  lock_once : Nat
  deriving DecidableEq, Repr

/-- Result of one iteration of the `for { select { ... } }` loop. -/
structure Iter where
  d : Daemon
  effects : List Effect
  returned : Bool
  deriving DecidableEq, Repr

/-- The `switch c := ctrl.(type)` of `control`: new flags and the actions
performed by the matching `case` (none when no case matches). -/
def ctrlSwitch (d : Daemon) (p : process) : Ctrl → Daemon × List Effect
  | Ctrl.controlPid ch => (d, [Effect.chanSend ch p.Pid])
  | Ctrl.controlUp => ({ d with lock := 0, lock_once := 0 }, [])
  | Ctrl.controlOnce => ({ d with lock_once := 1 }, [])
  | Ctrl.controlSignal sig => (d, [Effect.procSignal sig])
  | Ctrl.controlKill => (d, [Effect.procKill])
  | Ctrl.other _ => (d, [])

/-- One iteration of the loop body of `control`. -/
def controlIter (d : Daemon) (p : process) : Event → Iter
  | Event.exit err =>
      { d := { d with lock := d.lock_once }
        effects := [Effect.print Diag.sinceStart, Effect.print Diag.elapsed,
                    Effect.print (Diag.err err), Effect.closeCtrl, Effect.doneSend err]
        returned := true }
  | Event.ctrl c =>
      { d := (ctrlSwitch d p c).1
        effects := Effect.print (Diag.ctrl c) :: (ctrlSwitch d p c).2
        returned := false }

/-- Result of running the loop on the events it receives: the flags, the
actions so far, whether `control` has returned, and the events it did not
receive because it had returned. -/
structure Run where
  d : Daemon
  effects : List Effect
  returned : Bool
  rest : List Event
  deriving DecidableEq, Repr

/-- The loop of `control` on the sequence of events its `select` receives.
With no event left the loop is blocked in `select` (`returned = false`). -/
def control (d : Daemon) (p : process) : List Event → Run
  | [] => { d := d, effects := [], returned := false, rest := [] }
  | ev :: evs =>
      let it := controlIter d p ev
      if it.returned then
        { d := it.d, effects := it.effects, returned := true, rest := evs }
      else
        let r := control it.d p evs
        { r with effects := it.effects ++ r.effects }

/-- The first value sent on channel `ch` in a list of actions. -/
def firstSendOn (ch : ChanId) : List Effect → Option Int
  | [] => none
  | Effect.chanSend c v :: es => if c = ch then some v else firstSendOn ch es
  | _ :: es => firstSendOn ch es

/-- Embedding of `Daemon.Pid`: the query `controlPid{ch}` is queued on
`d.ctrl` behind the messages `pending`, and the result is the value received
on `ch` (`none` when nothing is ever sent on it). -/
def Daemon.Pid (d : Daemon) (p : process) (pending : List Ctrl) (ch : ChanId) : Option Int :=
  firstSendOn ch
    (control d p (pending.map Event.ctrl ++ [Event.ctrl (Ctrl.controlPid ch)])).effects

/-- Number of values sent on reply channel `ch`. -/
def sendsOn (ch : ChanId) (es : List Effect) : Nat :=
  (es.filter (fun e => match e with
    | Effect.chanSend c _ => decide (c = ch)
    | _ => false)).length

/-- An action on the process handle (`p.Signal` or `p.Kill`). -/
def Effect.toProcess : Effect → Bool
  | Effect.procSignal _ => true
  | Effect.procKill => true
  | _ => false

/-- A send on a reply channel. -/
def Effect.isReply : Effect → Bool
  | Effect.chanSend _ _ => true
  | _ => false

/-- Closing `d.ctrl` or sending on `d.done`. -/
def Effect.isShutdown : Effect → Bool
  | Effect.closeCtrl => true
  | Effect.doneSend _ => true
  | _ => false

/-- The flags after a sequence of events when the daemon keeps its flags from
one invocation of `control` to the next: each event is handled by one
iteration of the loop, run with the process handle current at that time. -/
def runCode (d : Daemon) : List (process × Event) → Daemon
  | [] => d
  | (p, ev) :: evs => runCode (controlIter d p ev).d evs

/-- The restart flags as the specification describes them. -/
structure SpecFlags where
  restartLock : Bool
  restartOnce : Bool
  deriving DecidableEq, Repr

/-- The specification's rule for each event (section 4.3): on exit, if
`restartOnce` then `restartLock := true` and `restartOnce := false`, else
nothing changes; `EnableRestart` clears both flags; `ArmRestartOnce` sets
`restartOnce`; the other messages leave the flags alone. -/
def specStep (s : SpecFlags) : Event → SpecFlags
  | Event.exit _ =>
      if s.restartOnce then { restartLock := true, restartOnce := false } else s
  | Event.ctrl Ctrl.controlUp => { restartLock := false, restartOnce := false }
  | Event.ctrl Ctrl.controlOnce => { s with restartOnce := true }
  | Event.ctrl _ => s

/-- The specification's flags after a sequence of events. -/
def runSpec (s : SpecFlags) : List (process × Event) → SpecFlags
  | [] => s
  | (_, ev) :: evs => runSpec (specStep s ev) evs

/-- The default flags of the daemon. -/
def Daemon.default : Daemon := { lock := 0, lock_once := 0 }

/-- The default flags of the specification. -/
def SpecFlags.default : SpecFlags := { restartLock := false, restartOnce := false }

/-- The simulation relation between the flags of the code and the flags of
the specification. -/
def Sim (d : Daemon) (s : SpecFlags) : Prop :=
  (d.lock = 0 ∧ s.restartLock = false ∧
      ((d.lock_once = 0 ∧ s.restartOnce = false) ∨ (d.lock_once = 1 ∧ s.restartOnce = true))) ∨
  (d.lock = 1 ∧ s.restartLock = true ∧ d.lock_once = 1)

/-! ## Helper lemmas -/

/-- The loop applied to control messages only: it never returns and its
actions are the concatenation of the actions of the iterations. -/
theorem control_ctrl_only (p : process) (cs : List Ctrl) (d : Daemon) :
    (control d p (cs.map Event.ctrl)).returned = false ∧
    (control d p (cs.map Event.ctrl)).rest = [] ∧
    ∀ e ∈ (control d p (cs.map Event.ctrl)).effects, e.isShutdown = false := by
  induction cs generalizing d with
  | nil => simp [control]
  | cons c cs ih =>
    obtain ⟨h1, h2, h3⟩ := ih (ctrlSwitch d p c).1
    refine ⟨?_, ?_, ?_⟩
    · simpa [control, controlIter] using h1
    · simpa [control, controlIter] using h2
    · intro e he
      simp only [List.map_cons, control, controlIter, Bool.false_eq_true, if_false,
        List.cons_append, List.mem_cons, List.mem_append] at he
      rcases he with rfl | he | he
      · rfl
      · cases c <;> simp [ctrlSwitch] at he <;> subst he <;> rfl
      · exact h3 e he

/-- The loop applied to control messages followed by an exit notification. -/
theorem control_ctrl_then_exit (p : process) (err : GoError) (rest : List Event)
    (cs : List Ctrl) (d : Daemon) :
    (control d p (cs.map Event.ctrl ++ Event.exit err :: rest)).returned = true ∧
    (control d p (cs.map Event.ctrl ++ Event.exit err :: rest)).rest = rest ∧
    (control d p (cs.map Event.ctrl ++ Event.exit err :: rest)).effects =
      (control d p (cs.map Event.ctrl)).effects ++
        [Effect.print Diag.sinceStart, Effect.print Diag.elapsed,
         Effect.print (Diag.err err), Effect.closeCtrl, Effect.doneSend err] := by
  induction cs generalizing d with
  | nil => simp [control, controlIter]
  | cons c cs ih =>
    obtain ⟨h1, h2, h3⟩ := ih (ctrlSwitch d p c).1
    refine ⟨?_, ?_, ?_⟩
    · simpa [control, controlIter] using h1
    · simpa [control, controlIter] using h2
    · have h3b := h3
      simp only [List.map_cons, List.cons_append, control, controlIter, Bool.false_eq_true,
        if_false, List.append_assoc, List.append_eq] at h3b ⊢
      rw [h3b]

/-- Every event list is either control messages only, or control messages
followed by a first exit notification. -/
theorem events_split (evs : List Event) :
    (∃ cs : List Ctrl, evs = cs.map Event.ctrl) ∨
    (∃ (cs : List Ctrl) (err : GoError) (rest : List Event),
      evs = cs.map Event.ctrl ++ Event.exit err :: rest) := by
  induction evs with
  | nil => exact Or.inl ⟨[], rfl⟩
  | cons ev evs ih =>
    cases ev with
    | exit err => exact Or.inr ⟨[], err, evs, rfl⟩
    | ctrl c =>
      rcases ih with ⟨cs, h⟩ | ⟨cs, err, rest, h⟩
      · exact Or.inl ⟨c :: cs, by simp [h]⟩
      · exact Or.inr ⟨c :: cs, err, rest, by simp [h]⟩

/-- A pid query queued behind control messages is answered with `p.Pid`,
and so is every earlier query. -/
theorem firstSendOn_control (p : process) (ch : ChanId) (cs : List Ctrl) (d : Daemon) :
    firstSendOn ch
      (control d p (cs.map Event.ctrl ++ [Event.ctrl (Ctrl.controlPid ch)])).effects
      = some p.Pid := by
  induction cs generalizing d with
  | nil => simp [control, controlIter, ctrlSwitch, firstSendOn]
  | cons c cs ih =>
    have h := ih (ctrlSwitch d p c).1
    cases c <;>
      simp_all [control, controlIter, ctrlSwitch, firstSendOn]

/-- While no `controlUp` is processed, an armed `lock_once` stays armed. -/
theorem runCode_keeps_lock_once (cs : List (process × Ctrl)) (d : Daemon)
    (h : d.lock_once = 1) (hcs : ∀ x ∈ cs, x.2 ≠ Ctrl.controlUp) :
    (runCode d (cs.map (fun x => (x.1, Event.ctrl x.2)))).lock_once = 1 := by
  induction cs generalizing d with
  | nil => simpa [runCode] using h
  | cons c cs ih =>
    obtain ⟨q, c⟩ := c
    simp only [List.map_cons, runCode]
    apply ih
    · have hc : c ≠ Ctrl.controlUp := hcs (q, c) (List.mem_cons_self _ _)
      cases c <;> simp_all [controlIter, ctrlSwitch]
    · intro x hx
      exact hcs x (List.mem_cons_of_mem _ hx)

/-- Running a sequence of events and then one more. -/
theorem runCode_append (evs : List (process × Event)) (d : Daemon) (q : process) (ev : Event) :
    runCode d (evs ++ [(q, ev)]) = (controlIter (runCode d evs) q ev).d := by
  induction evs generalizing d with
  | nil => simp [runCode]
  | cons x evs ih =>
    obtain ⟨r, e⟩ := x
    simp [runCode, ih]

/-- One event preserves the simulation relation. -/
theorem sim_step (d : Daemon) (s : SpecFlags) (p : process) (ev : Event) (h : Sim d s) :
    Sim (controlIter d p ev).d (specStep s ev) := by
  obtain ⟨l, o⟩ := d
  obtain ⟨sl, so⟩ := s
  rcases h with ⟨h1, h2, (⟨h3, h4⟩ | ⟨h3, h4⟩)⟩ | ⟨h1, h2, h3⟩ <;>
    rcases ev with _ | c <;> (try cases c) <;> (try cases so) <;>
    simp_all [Sim, controlIter, ctrlSwitch, specStep]

/-- The simulation relation holds along every run. -/
theorem sim_run (evs : List (process × Event)) (d : Daemon) (s : SpecFlags) (h : Sim d s) :
    Sim (runCode d evs) (runSpec s evs) := by
  induction evs generalizing d s with
  | nil => simpa [runCode, runSpec] using h
  | cons x evs ih =>
    obtain ⟨q, ev⟩ := x
    simp only [runCode, runSpec]
    exact ih _ _ (sim_step d s q ev h)

/-! ## The exit notification -/

/-- C1 (as amended): when `d.lock_once` is false (`0`), processing an exit
notification stores it into `d.lock`, so `d.lock` is false afterwards; it is
unchanged exactly when it was already false. -/
theorem exit_unarmed_sets_lock_false (d : Daemon) (p : process) (err : GoError)
    (h : d.lock_once = 0) :
    (controlIter d p (Event.exit err)).d.lock = 0 ∧
    (controlIter d p (Event.exit err)).d.lock_once = 0 ∧
    ((controlIter d p (Event.exit err)).d.lock = d.lock ↔ d.lock = 0) := by
  refine ⟨?_, ?_, ?_⟩
  · simp [controlIter, h]
  · simp [controlIter, h]
  · simp only [controlIter, h]
    exact eq_comm

/-- A concrete instance: the flags `lock = 1`, `lock_once = 0`. -/
theorem exit_unarmed_sets_lock_false_witness :
    ({ lock := 1, lock_once := 0 } : Daemon).lock_once = 0 ∧
    (controlIter { lock := 1, lock_once := 0 } { Pid := 42 } (Event.exit none)).d.lock = 0 :=
  ⟨rfl, (exit_unarmed_sets_lock_false { lock := 1, lock_once := 0 } { Pid := 42 } none rfl).1⟩

/-- C1 (as stated) fails: with `lock = 1` and `lock_once = 0` the exit
notification leaves `lock = 0`, so a lock that was true is not preserved. -/
theorem exit_unarmed_overwrites_lock_counterexample :
    ({ lock := 1, lock_once := 0 } : Daemon).lock_once = 0 ∧
    ({ lock := 1, lock_once := 0 } : Daemon).lock = 1 ∧
    (controlIter { lock := 1, lock_once := 0 } { Pid := 42 } (Event.exit none)).d.lock = 0 ∧
    (control { lock := 1, lock_once := 0 } { Pid := 42 } [Event.exit none]).d.lock = 0 ∧
    ¬ (∀ (d : Daemon) (p : process) (err : GoError), d.lock_once = 0 →
        (controlIter d p (Event.exit err)).d.lock = d.lock) := by
  refine ⟨rfl, rfl, rfl, rfl, ?_⟩
  intro hall
  have h := hall { lock := 1, lock_once := 0 } { Pid := 42 } none rfl
  simp [controlIter] at h

/-- C2: when `d.lock_once` is true (`1`), processing an exit notification
leaves `d.lock` true whatever it was before; hence `controlOnce` followed by
one exit notification ends with `d.lock` true from every state. -/
theorem exit_armed_sets_lock (d : Daemon) (p : process) (err : GoError)
    (h : d.lock_once = 1) :
    (controlIter d p (Event.exit err)).d.lock = 1 ∧
    (∀ (d0 : Daemon) (q : process),
      (control d0 q [Event.ctrl Ctrl.controlOnce, Event.exit err]).d.lock = 1 ∧
      (control d0 q [Event.ctrl Ctrl.controlOnce, Event.exit err]).returned = true) := by
  refine ⟨?_, ?_⟩
  · simp [controlIter, h]
  · intro d0 q
    simp [control, controlIter, ctrlSwitch]

/-- A concrete instance: the flags `lock = 0`, `lock_once = 1`. -/
theorem exit_armed_sets_lock_witness :
    ({ lock := 0, lock_once := 1 } : Daemon).lock_once = 1 ∧
    (controlIter { lock := 0, lock_once := 1 } { Pid := 42 } (Event.exit none)).d.lock = 1 :=
  ⟨rfl, (exit_armed_sets_lock { lock := 0, lock_once := 1 } { Pid := 42 } none rfl).1⟩

/-- C3 (as amended): the exit notification does not consume the arm.  When
`d.lock_once` is true, processing an exit notification leaves it true; every
event other than `controlUp` keeps it true and `controlUp` clears it; so a
later exit notification stores `lock = 1` again without a new `controlOnce`,
as long as no `controlUp` was processed in between. -/
theorem exit_keeps_lock_once (d : Daemon) (p : process) (err : GoError)
    (h : d.lock_once = 1) :
    (controlIter d p (Event.exit err)).d.lock_once = 1 ∧
    (∀ (q : process) (ev : Event), ev ≠ Event.ctrl Ctrl.controlUp →
      (controlIter d q ev).d.lock_once = 1) ∧
    (∀ q : process, (controlIter d q (Event.ctrl Ctrl.controlUp)).d.lock_once = 0) ∧
    (∀ (cs : List (process × Ctrl)) (q : process) (err2 : GoError),
      (∀ x ∈ cs, x.2 ≠ Ctrl.controlUp) →
      (runCode (controlIter d p (Event.exit err)).d
        (cs.map (fun x => (x.1, Event.ctrl x.2)) ++ [(q, Event.exit err2)])).lock = 1) := by
  refine ⟨?_, ?_, ?_, ?_⟩
  · simp [controlIter, h]
  · intro q ev hev
    rcases ev with _ | c
    · simp [controlIter, h]
    · cases c <;> simp_all [controlIter, ctrlSwitch]
  · intro q
    simp [controlIter, ctrlSwitch]
  · intro cs q err2 hcs
    have hd : (controlIter d p (Event.exit err)).d.lock_once = 1 := by
      simp [controlIter, h]
    have hk := runCode_keeps_lock_once cs _ hd hcs
    rw [runCode_append]
    simpa [controlIter] using hk

/-- A concrete instance: an armed daemon with `lock = 0`, `lock_once = 1`. -/
theorem exit_keeps_lock_once_witness :
    ({ lock := 0, lock_once := 1 } : Daemon).lock_once = 1 ∧
    (controlIter { lock := 0, lock_once := 1 } { Pid := 42 } (Event.exit none)).d.lock_once = 1 :=
  ⟨rfl, (exit_keeps_lock_once { lock := 0, lock_once := 1 } { Pid := 42 } none rfl).1⟩

/-- C3 (as stated) fails: with `lock_once = 1` the exit notification leaves
`lock_once = 1`, not `0`. -/
theorem exit_does_not_reset_lock_once_counterexample :
    ({ lock := 0, lock_once := 1 } : Daemon).lock_once = 1 ∧
    (controlIter { lock := 0, lock_once := 1 } { Pid := 42 } (Event.exit none)).d.lock_once = 1 ∧
    (control { lock := 0, lock_once := 1 } { Pid := 42 } [Event.exit none]).d.lock_once = 1 ∧
    (controlIter { lock := 0, lock_once := 1 } { Pid := 42 } (Event.exit none)).d.lock_once ≠ 0 := by
  refine ⟨rfl, rfl, rfl, ?_⟩
  simp [controlIter]

/-! ## The control messages -/

/-- C4: `controlUp` leaves `lock = 0` and `lock_once = 0` from every state,
performs no action besides the diagnostic print (nothing on the process
handle, no reply, no close, no send on `d.done`), does not stop the loop, and
changes nothing when both flags are already `0`. -/
theorem controlUp_clears_flags (d : Daemon) (p : process) :
    (controlIter d p (Event.ctrl Ctrl.controlUp)).d = { lock := 0, lock_once := 0 } ∧
    (controlIter d p (Event.ctrl Ctrl.controlUp)).effects
      = [Effect.print (Diag.ctrl Ctrl.controlUp)] ∧
    (∀ e ∈ (controlIter d p (Event.ctrl Ctrl.controlUp)).effects,
      e.toProcess = false ∧ e.isReply = false ∧ e.isShutdown = false) ∧
    (controlIter d p (Event.ctrl Ctrl.controlUp)).returned = false ∧
    (controlIter { lock := 0, lock_once := 0 } p (Event.ctrl Ctrl.controlUp)).d
      = { lock := 0, lock_once := 0 } := by
  refine ⟨rfl, rfl, ?_, rfl, rfl⟩
  intro e he
  simp only [controlIter, ctrlSwitch, List.mem_singleton] at he
  subst he
  exact ⟨rfl, rfl, rfl⟩

/-- C5: `controlOnce` sets `lock_once = 1` and does nothing else: `lock` is
unchanged, the only action is the diagnostic print, the loop continues; when
`lock_once` is already `1` the flags do not change. -/
theorem controlOnce_arms (d : Daemon) (p : process) :
    (controlIter d p (Event.ctrl Ctrl.controlOnce)).d.lock_once = 1 ∧
    (controlIter d p (Event.ctrl Ctrl.controlOnce)).d.lock = d.lock ∧
    (controlIter d p (Event.ctrl Ctrl.controlOnce)).effects
      = [Effect.print (Diag.ctrl Ctrl.controlOnce)] ∧
    (∀ e ∈ (controlIter d p (Event.ctrl Ctrl.controlOnce)).effects,
      e.toProcess = false ∧ e.isReply = false ∧ e.isShutdown = false) ∧
    (controlIter d p (Event.ctrl Ctrl.controlOnce)).returned = false ∧
    (controlIter { lock := d.lock, lock_once := 1 } p (Event.ctrl Ctrl.controlOnce)).d
      = { lock := d.lock, lock_once := 1 } := by
  refine ⟨rfl, rfl, rfl, ?_, rfl, rfl⟩
  intro e he
  simp only [controlIter, ctrlSwitch, List.mem_singleton] at he
  subst he
  exact ⟨rfl, rfl, rfl⟩

/-- C6: `controlPid{ch}` sends exactly one value on `ch`, namely `p.Pid`,
leaves both flags unchanged and does not stop the loop; `Daemon.Pid`, whose
query is queued behind any control messages, returns `p.Pid`. -/
theorem controlPid_replies_pid (d : Daemon) (p : process) (ch : ChanId) (pending : List Ctrl) :
    (controlIter d p (Event.ctrl (Ctrl.controlPid ch))).effects
      = [Effect.print (Diag.ctrl (Ctrl.controlPid ch)), Effect.chanSend ch p.Pid] ∧
    sendsOn ch (controlIter d p (Event.ctrl (Ctrl.controlPid ch))).effects = 1 ∧
    firstSendOn ch (controlIter d p (Event.ctrl (Ctrl.controlPid ch))).effects = some p.Pid ∧
    (controlIter d p (Event.ctrl (Ctrl.controlPid ch))).d = d ∧
    (controlIter d p (Event.ctrl (Ctrl.controlPid ch))).returned = false ∧
    Daemon.Pid d p pending ch = some p.Pid := by
  refine ⟨rfl, ?_, ?_, rfl, rfl, ?_⟩
  · simp [sendsOn, controlIter, ctrlSwitch]
  · simp [firstSendOn, controlIter, ctrlSwitch]
  · exact firstSendOn_control p ch pending d

/-- C7: `controlSignal{sig}` calls `p.Signal(sig)` once and performs no other
action besides the diagnostic print (no other signal, no kill, no reply);
both flags are unchanged and the loop continues. -/
theorem controlSignal_delivers (d : Daemon) (p : process) (sig : Signal) :
    (controlIter d p (Event.ctrl (Ctrl.controlSignal sig))).effects
      = [Effect.print (Diag.ctrl (Ctrl.controlSignal sig)), Effect.procSignal sig] ∧
    ((controlIter d p (Event.ctrl (Ctrl.controlSignal sig))).effects.filter
      Effect.toProcess) = [Effect.procSignal sig] ∧
    (∀ e ∈ (controlIter d p (Event.ctrl (Ctrl.controlSignal sig))).effects,
      e.isReply = false ∧ e.isShutdown = false ∧ e ≠ Effect.procKill) ∧
    (controlIter d p (Event.ctrl (Ctrl.controlSignal sig))).d = d ∧
    (controlIter d p (Event.ctrl (Ctrl.controlSignal sig))).returned = false := by
  refine ⟨rfl, ?_, ?_, rfl, rfl⟩
  · simp [controlIter, ctrlSwitch, Effect.toProcess]
  · intro e he
    simp only [controlIter, ctrlSwitch, List.mem_cons, List.mem_singleton, List.not_mem_nil,
      or_false] at he
    rcases he with rfl | rfl <;> simp [Effect.isReply, Effect.isShutdown]

/-- C8: `controlKill` calls `p.Kill()` once and nothing else besides the
diagnostic print: both flags are unchanged, `d.ctrl` is not closed, nothing
is sent on `d.done`, and the loop goes on to the next event (the exit is
handled only when the exit notification is received). -/
theorem controlKill_only_requests (d : Daemon) (p : process) (evs : List Event) :
    (controlIter d p (Event.ctrl Ctrl.controlKill)).effects
      = [Effect.print (Diag.ctrl Ctrl.controlKill), Effect.procKill] ∧
    ((controlIter d p (Event.ctrl Ctrl.controlKill)).effects.filter
      Effect.toProcess) = [Effect.procKill] ∧
    (∀ e ∈ (controlIter d p (Event.ctrl Ctrl.controlKill)).effects,
      e.isReply = false ∧ e.isShutdown = false) ∧
    (controlIter d p (Event.ctrl Ctrl.controlKill)).d = d ∧
    (controlIter d p (Event.ctrl Ctrl.controlKill)).returned = false ∧
    (control d p [Event.ctrl Ctrl.controlKill]).returned = false ∧
    (control d p (Event.ctrl Ctrl.controlKill :: evs)).returned = (control d p evs).returned ∧
    (control d p (Event.ctrl Ctrl.controlKill :: evs)).d = (control d p evs).d := by
  refine ⟨rfl, ?_, ?_, rfl, rfl, rfl, rfl, rfl⟩
  · simp [controlIter, ctrlSwitch, Effect.toProcess]
  · intro e he
    simp only [controlIter, ctrlSwitch, List.mem_cons, List.mem_singleton, List.not_mem_nil,
      or_false] at he
    rcases he with rfl | rfl <;> simp [Effect.isReply, Effect.isShutdown]

/-! ## Termination of the loop -/

/-- C9: the loop returns only by processing an exit notification.  On control
messages alone it never returns, never closes `d.ctrl` and never sends on
`d.done`; this holds for each single message of any type.  When the first
exit notification arrives it returns, and its last two actions are closing
`d.ctrl` and then sending the received error on `d.done`: these are the only
close and the only send on `d.done` of the whole run. -/
theorem control_stops_only_on_exit (d : Daemon) (p : process) :
    (∀ cs : List Ctrl,
      (control d p (cs.map Event.ctrl)).returned = false ∧
      ∀ e ∈ (control d p (cs.map Event.ctrl)).effects, e.isShutdown = false) ∧
    (∀ (cs : List Ctrl) (err : GoError) (rest : List Event),
      (control d p (cs.map Event.ctrl ++ Event.exit err :: rest)).returned = true ∧
      (control d p (cs.map Event.ctrl ++ Event.exit err :: rest)).rest = rest ∧
      (∃ pre : List Effect,
        (control d p (cs.map Event.ctrl ++ Event.exit err :: rest)).effects
          = pre ++ [Effect.closeCtrl, Effect.doneSend err] ∧
        ∀ e ∈ pre, e.isShutdown = false) ∧
      (control d p (cs.map Event.ctrl ++ Event.exit err :: rest)).effects.filter
        Effect.isShutdown = [Effect.closeCtrl, Effect.doneSend err]) ∧
    (∀ evs : List Event,
      (control d p evs).returned = true ↔ ∃ err, Event.exit err ∈ evs) ∧
    (∀ c : Ctrl,
      (controlIter d p (Event.ctrl c)).returned = false ∧
      ∀ e ∈ (controlIter d p (Event.ctrl c)).effects, e.isShutdown = false) := by
  have hpre : ∀ (cs : List Ctrl) (err : GoError),
      ∀ e ∈ (control d p (cs.map Event.ctrl)).effects ++
          [Effect.print Diag.sinceStart, Effect.print Diag.elapsed,
           Effect.print (Diag.err err)], e.isShutdown = false := by
    intro cs err e he
    rcases List.mem_append.mp he with he | he
    · exact (control_ctrl_only p cs d).2.2 e he
    · simp only [List.mem_cons, List.mem_singleton, List.not_mem_nil, or_false] at he
      rcases he with rfl | rfl | rfl <;> rfl
  refine ⟨?_, ?_, ?_, ?_⟩
  · intro cs
    exact ⟨(control_ctrl_only p cs d).1, (control_ctrl_only p cs d).2.2⟩
  · intro cs err rest
    obtain ⟨h1, h2, h3⟩ := control_ctrl_then_exit p err rest cs d
    refine ⟨h1, h2, ⟨_, ?_, hpre cs err⟩, ?_⟩
    · rw [h3]
      simp
    · rw [h3, List.filter_append]
      have hnil : List.filter Effect.isShutdown (control d p (cs.map Event.ctrl)).effects = [] := by
        rw [List.filter_eq_nil_iff]
        intro e he
        simp [(control_ctrl_only p cs d).2.2 e he]
      rw [hnil]
      rfl
  · intro evs
    rcases events_split evs with ⟨cs, h⟩ | ⟨cs, err, rest, h⟩
    · subst h
      rw [(control_ctrl_only p cs d).1]
      simp
    · subst h
      rw [(control_ctrl_then_exit p err rest cs d).1]
      simp
  · intro c
    refine ⟨rfl, ?_⟩
    intro e he
    have h := (control_ctrl_only p [c] d).2.2 e
    apply h
    simpa [control, controlIter] using he

/-! ## The code's exit rule against the specification's -/

/-- C10: starting from the default flags, after every finite sequence of
events the code's `lock` (exit rule `lock := lock_once`) is true exactly when
the specification's `restartLock` (exit rule: if `restartOnce` then
`restartLock := true`, `restartOnce := false`) is true, and it is `0` or `1`;
moreover every state the code reaches satisfies `lock = 1 → lock_once = 1`. -/
theorem code_lock_refines_spec_lock (evs : List (process × Event)) :
    ((runCode Daemon.default evs).lock = 1 ↔
      (runSpec SpecFlags.default evs).restartLock = true) ∧
    ((runCode Daemon.default evs).lock = 0 ↔
      (runSpec SpecFlags.default evs).restartLock = false) ∧
    ((runCode Daemon.default evs).lock = 1 → (runCode Daemon.default evs).lock_once = 1) := by
  have h0 : Sim Daemon.default SpecFlags.default := by
    simp [Sim, Daemon.default, SpecFlags.default]
  have h := sim_run evs _ _ h0
  rcases h with ⟨h1, h2, _⟩ | ⟨h1, h2, h3⟩
  · simp [h1, h2]
  · simp [h1, h2, h3]

end Immortal
